import Mathlib

/-!
Shallow embedding of the SuperQuiz live-session coordinator (server.js).

The server keeps a process-wide `liveRooms` map (session code → room),
Socket.IO multicast groups, and six event handlers: `createLive`,
`joinLive`, `nextQuestion`, `submitAnswer`, `endLive`, `disconnect`.
JavaScript `Map`s are modelled as insertion-ordered association lists,
JavaScript objects used as dictionaries likewise; a JavaScript array
access at a possibly-negative index is modelled by `jsIndex`, which
returns `none` (i.e. `undefined`) out of bounds.  A handler produces a
new server state, an optional direct callback reply, a list of emitted
messages, and an `errored` flag recording that the JavaScript handler
threw an uncaught exception at that point (state mutations made before
the throw persist, and no further emits happen).
-/

namespace SuperQuiz

/-- Model of `Map.get` on an insertion-ordered association list. -/
def mapGet {κ α : Type} [DecidableEq κ] : List (κ × α) → κ → Option α
  | [], _ => none
  | (k', v) :: rest, k => if k' = k then some v else mapGet rest k

/-- Model of `Map.set`: replace in place if the key is present, else append. -/
def mapSet {κ α : Type} [DecidableEq κ] : List (κ × α) → κ → α → List (κ × α)
  | [], k, v => [(k, v)]
  | (k', v') :: rest, k, v =>
      if k' = k then (k, v) :: rest else (k', v') :: mapSet rest k v

/-- Model of `Map.delete`: remove the first entry with the given key. -/
def mapDelete {κ α : Type} [DecidableEq κ] : List (κ × α) → κ → List (κ × α)
  | [], _ => []
  | (k', v) :: rest, k => if k' = k then rest else (k', v) :: mapDelete rest k

/-- JavaScript array indexing with an `Int` index: negative or
out-of-range indices yield `undefined`, modelled as `none`. -/
def jsIndex {α : Type} (l : List α) (i : Int) : Option α :=
  if i < 0 then none else l.get? i.toNat

/-- JavaScript `String.prototype.toUpperCase`, character by
character (session codes are ASCII letters, digits and a dash). -/
def jsToUpper (s : String) : String := String.mk (s.data.map Char.toUpper)

/-- A quiz question, as read from the content store: only its
`correct` answer-index list matters to the coordinator. -/
structure Question where
  text : String
  correct : List Nat
deriving DecidableEq, Repr

/-- Quiz content snapshot `{ownerUid, questions}` from the store. -/
structure QuizData where
  ownerUid : String
  questions : List Question
deriving DecidableEq, Repr

/-- Per-participant record `{name, score, answers}`; `answers` is a
JavaScript object keyed by the (possibly negative) question index. -/
structure Participant where
  name : String
  score : Nat
  answers : List (Int × Nat)
deriving DecidableEq, Repr

/-- One live room, as built in `createLive`. -/
structure Room where
  code : String
  hostSocket : Nat
  quizId : String
  quiz : QuizData
  currentIndex : Nat
  participants : List (String × Participant)
deriving DecidableEq, Repr

/-- Whole-server state: the `liveRooms` registry and the Socket.IO
group memberships (group name, socket id). -/
structure ServerState where
  liveRooms : List (String × Room)
  groups : List (String × Nat)
deriving DecidableEq, Repr

/-- Destination of an emitted message: a single socket
(`socket.emit` / `hostSocket.emit`), a whole group (`io.to(name)`), or
a group minus the sender (`socket.to(name)`). -/
inductive Target where
  | toSocket (conn : Nat)
  | toGroup (name : String)
  | toGroupExcept (name : String) (conn : Nat)
deriving DecidableEq, Repr

/-- Emitted message payloads.  `answerReceived` carries the
correctness flag only when sent to the host (`some b`); the peer copy
carries `none` (the JavaScript payload has no `correct` field). -/
inductive Msg where
  | liveCreated (code : String)
  | studentJoined (name : String) (count : Nat)
  | newQuestion (q : Option Question) (index : Nat)
  | liveEnded (reason : String)
  | answerReceived (name : String) (correct : Option Bool)
deriving DecidableEq, Repr

/-- Direct callback replies. -/
inductive Reply where
  | ok (code : String)
  | success
  | error (msg : String)
deriving DecidableEq, Repr

/-- Result of running one handler. -/
structure HandlerOut where
  state : ServerState
  reply : Option Reply
  emits : List (Target × Msg)
  errored : Bool
deriving DecidableEq, Repr

/-- A handler invocation that changes nothing and emits nothing. -/
def noop (s : ServerState) : HandlerOut := ⟨s, none, [], false⟩

/-- Model of `socket.join(name)`: set-insert of a (group, socket) pair. -/
def joinGroup (gs : List (String × Nat)) (name : String) (conn : Nat) :
    List (String × Nat) :=
  if (name, conn) ∈ gs then gs else gs ++ [(name, conn)]

/-- Outcome of the Firestore quiz fetch in `createLive`: the awaited
call can throw, find no document, or return quiz data. -/
inductive FetchResult where
  | throws
  | notFound
  | found (data : QuizData)
deriving DecidableEq, Repr

/-- The `createLive` handler.  Checks the teacher role, fetches the quiz
(`fetch` is the outcome of the awaited Firestore call), checks
ownership, then registers a room under a fresh code with
`currentIndex = 0` and joins the host socket to the code's group.
Every failure path only calls the callback with an error. -/
def createLive (s : ServerState) (conn : Nat) (uid : String) (role : String)
    (quizId : String) (fetch : FetchResult) (freshCode : String) : HandlerOut :=
  if role = "teacher" then
    match fetch with
    | FetchResult.throws => ⟨s, some (Reply.error "Erreur serveur"), [], false⟩
    | FetchResult.notFound => ⟨s, some (Reply.error "Quiz introuvable"), [], false⟩
    | FetchResult.found quizData =>
      if quizData.ownerUid = uid then
        let room : Room := ⟨freshCode, conn, quizId, quizData, 0, []⟩
        ⟨⟨mapSet s.liveRooms freshCode room, joinGroup s.groups freshCode conn⟩,
          some (Reply.ok freshCode),
          [(Target.toSocket conn, Msg.liveCreated freshCode)], false⟩
      else ⟨s, some (Reply.error "Pas le proprietaire de ce quiz"), [], false⟩
  else ⟨s, some (Reply.error "Seuls les professeurs peuvent creer un live"), [], false⟩

/-- The `joinLive` handler.  Looks the room up under the upper-cased code
(`code.toUpperCase()` in the source, `jsToUpper code` here),
but joins the socket to the group named by the RAW `code` string and
notifies peers via `socket.to(code)` on that raw name.  Registers (or
resets) the participant, notifies host and peers with the new count,
replies success, and privately sends the current question when the
live has already started. -/
def joinLive (s : ServerState) (conn : Nat) (uid : String) (userName : String)
    (code : String) : HandlerOut :=
  match mapGet s.liveRooms (jsToUpper code) with
  | none => ⟨s, some (Reply.error "Code invalide ou live termine"), [], false⟩
  | some room =>
    let groups1 := joinGroup s.groups code conn
    let participant : Participant := ⟨userName, 0, []⟩
    let parts1 := mapSet room.participants uid participant
    let room1 := { room with participants := parts1 }
    let rooms1 := mapSet s.liveRooms (jsToUpper code) room1
    let baseEmits :=
      [(Target.toSocket room.hostSocket, Msg.studentJoined userName parts1.length),
       (Target.toGroupExcept code conn, Msg.studentJoined userName parts1.length)]
    let catchUp :=
      if 0 < room.currentIndex then
        [(Target.toSocket conn,
          Msg.newQuestion (jsIndex room.quiz.questions ((room.currentIndex : Int) - 1))
            (room.currentIndex - 1))]
      else []
    ⟨⟨rooms1, groups1⟩, some Reply.success, baseEmits ++ catchUp, false⟩

/-- The `nextQuestion` handler.  Raw-code lookup; silently ignored unless
the caller is the stored host socket.  Once `currentIndex` has reached
the question count the call broadcasts `liveEnded` and deletes the
room; otherwise it broadcasts the question at `currentIndex` and
increments it. -/
def nextQuestion (s : ServerState) (conn : Nat) (code : String) : HandlerOut :=
  match mapGet s.liveRooms code with
  | none => noop s
  | some room =>
    if room.hostSocket = conn then
      if h : room.currentIndex < room.quiz.questions.length then
        let q := room.quiz.questions.get ⟨room.currentIndex, h⟩
        let room1 := { room with currentIndex := room.currentIndex + 1 }
        ⟨⟨mapSet s.liveRooms code room1, s.groups⟩, none,
          [(Target.toGroup code, Msg.newQuestion (some q) room.currentIndex)], false⟩
      else
        ⟨⟨mapDelete s.liveRooms code, s.groups⟩, none,
          [(Target.toGroup code, Msg.liveEnded "quiz_completed")], false⟩
    else noop s

/-- The `submitAnswer` handler.  Raw-code lookup; dropped when the room or
the participant is missing.  Writes the submitted index into
`answers[currentIndex - 1]` unconditionally, then reads
`question.correct`: when `currentIndex = 0` the question lookup
yielded `undefined`, so that read throws after the answers mutation
has already happened (`errored = true`, no emits).  Otherwise the
score is incremented whenever the answer is correct — with no check
that this question index was already answered — and the host is
notified with the correctness flag while peers get the name only. -/
def submitAnswer (s : ServerState) (conn : Nat) (uid : String) (code : String)
    (answerIndex : Nat) : HandlerOut :=
  match mapGet s.liveRooms code with
  | none => noop s
  | some room =>
    match mapGet room.participants uid with
    | none => noop s
    | some participant =>
      let cqi : Int := (room.currentIndex : Int) - 1
      let p1 := { participant with answers := mapSet participant.answers cqi answerIndex }
      match jsIndex room.quiz.questions cqi with
      | none =>
        let room1 := { room with participants := mapSet room.participants uid p1 }
        ⟨⟨mapSet s.liveRooms code room1, s.groups⟩, none, [], true⟩
      | some question =>
        let isCorrect := decide (answerIndex ∈ question.correct)
        let p2 := if isCorrect then { p1 with score := p1.score + 1 } else p1
        let room2 := { room with participants := mapSet room.participants uid p2 }
        ⟨⟨mapSet s.liveRooms code room2, s.groups⟩, none,
          [(Target.toSocket room.hostSocket, Msg.answerReceived p1.name (some isCorrect)),
           (Target.toGroupExcept code conn, Msg.answerReceived p1.name none)], false⟩

/-- The `endLive` handler.  Raw-code lookup; silently ignored unless the
caller is the stored host socket; otherwise broadcasts `liveEnded` and
deletes the room. -/
def endLive (s : ServerState) (conn : Nat) (code : String) : HandlerOut :=
  match mapGet s.liveRooms code with
  | none => noop s
  | some room =>
    if room.hostSocket = conn then
      ⟨⟨mapDelete s.liveRooms code, s.groups⟩, none,
        [(Target.toGroup code, Msg.liveEnded "ended_by_teacher")], false⟩
    else noop s

/-- The `for … of liveRooms.entries()` scan in the disconnect handler:
remove the FIRST room hosted by the dropped socket, emit its
`liveEnded` broadcast, and `break`. -/
def disconnectScan : List (String × Room) → Nat →
    List (String × Room) × List (Target × Msg)
  | [], _ => ([], [])
  | (code, room) :: rest, conn =>
    if room.hostSocket = conn then
      (rest, [(Target.toGroup code, Msg.liveEnded "teacher_disconnected")])
    else
      let r := disconnectScan rest conn
      ((code, room) :: r.1, r.2)

/-- The `disconnect` handler. -/
def disconnect (s : ServerState) (conn : Nat) : HandlerOut :=
  let r := disconnectScan s.liveRooms conn
  ⟨⟨r.1, s.groups⟩, none, r.2, false⟩

/-- One inbound connection event, carrying the resolved identity of
the calling socket.  `createLive` also carries the outcome of its
external content-store fetch and the code the generator produced. -/
inductive Event where
  | createLive (conn : Nat) (uid role quizId : String) (fetch : FetchResult)
      (freshCode : String)
  | joinLive (conn : Nat) (uid userName code : String)
  | nextQuestion (conn : Nat) (code : String)
  | submitAnswer (conn : Nat) (uid code : String) (answerIndex : Nat)
  | endLive (conn : Nat) (code : String)
  | disconnect (conn : Nat)
deriving DecidableEq, Repr

/-- Dispatch one event to its handler. -/
def applyEvent (s : ServerState) : Event → HandlerOut
  | Event.createLive conn uid role quizId fetch freshCode =>
      createLive s conn uid role quizId fetch freshCode
  | Event.joinLive conn uid userName code => joinLive s conn uid userName code
  | Event.nextQuestion conn code => nextQuestion s conn code
  | Event.submitAnswer conn uid code answerIndex =>
      submitAnswer s conn uid code answerIndex
  | Event.endLive conn code => endLive s conn code
  | Event.disconnect conn => disconnect s conn

/-- Run a sequence of events, keeping only the evolving state. -/
def runEvents (s : ServerState) (es : List Event) : ServerState :=
  es.foldl (fun st e => (applyEvent st e).state) s

/-- Server state at process start: no rooms, no group members. -/
def initState : ServerState := ⟨[], []⟩

/-- Every registered room keeps `currentIndex` within
`0 .. quiz.questions.length` (the lower bound holds by the `Nat`
type). -/
def IndexInv (s : ServerState) : Prop :=
  ∀ p ∈ s.liveRooms, p.2.currentIndex ≤ p.2.quiz.questions.length

/-- The messages a non-submitting, non-host group member can see:
those multicast via `socket.to(group)`. -/
def peerVisible (l : List (Target × Msg)) : List (Target × Msg) :=
  l.filter fun tm =>
    match tm.1 with
    | Target.toGroupExcept _ _ => true
    | _ => false

/-! ### Concrete fixtures used by witnesses and counterexamples -/

/-- One-question quiz: question 0 has correct-answer set `{0}`. -/
def qOne : Question := ⟨"Q1", [0]⟩

def quizOne : QuizData := ⟨"t-uid", [qOne]⟩

/-- Freshly created session for `quizOne` (host socket 0). -/
def roomFresh : Room := ⟨"QZ-ABC123", 0, "quiz1", quizOne, 0, []⟩

/-- Session in progress: question 0 already sent, Alice joined. -/
def roomLive : Room :=
  ⟨"QZ-ABC123", 0, "quiz1", quizOne, 1, [("stud1", ⟨"Alice", 0, []⟩)]⟩

/-- Lobby session: no question sent yet, Alice joined. -/
def roomLobby : Room :=
  ⟨"QZ-ABC123", 0, "quiz1", quizOne, 0, [("stud1", ⟨"Alice", 0, []⟩)]⟩

def stateFresh : ServerState := ⟨[("QZ-ABC123", roomFresh)], [("QZ-ABC123", 0)]⟩

def stateLive : ServerState := ⟨[("QZ-ABC123", roomLive)], [("QZ-ABC123", 0)]⟩

def stateLobby : ServerState := ⟨[("QZ-ABC123", roomLobby)], [("QZ-ABC123", 0)]⟩

/-- A room hosted by an unrelated socket 9. -/
def roomOther : Room := ⟨"QZ-OTHER11", 9, "quiz9", quizOne, 0, []⟩

/-- A second room hosted by the same socket 0 as `roomFresh`. -/
def roomSecond : Room := ⟨"QZ-SECOND1", 0, "quiz1", quizOne, 0, []⟩

/-- Registry with socket 0 hosting both the second and the third
room (`roomFresh` and `roomSecond`). -/
def stateTwoHosted : ServerState :=
  ⟨[("QZ-OTHER11", roomOther), ("QZ-ABC123", roomFresh), ("QZ-SECOND1", roomSecond)], []⟩

/-! ### Association-list lemmas -/

/-- A successful `mapGet` means the binding is in the list. -/
theorem mapGet_mem {κ α : Type} [DecidableEq κ] :
    ∀ (m : List (κ × α)) (k : κ) (v : α), mapGet m k = some v → (k, v) ∈ m
  | [], _, _, h => by simp [mapGet] at h
  | (k', v') :: rest, k, v, h => by
      by_cases hk : k' = k
      · subst hk
        simp [mapGet] at h
        subst h
        exact List.mem_cons_self _ _
      · simp [mapGet, hk] at h
        exact List.mem_cons_of_mem _ (mapGet_mem rest k v h)

/-- Every binding after a `mapSet` is the new one or an old one. -/
theorem mem_mapSet {κ α : Type} [DecidableEq κ] :
    ∀ (m : List (κ × α)) (k : κ) (v : α) (p : κ × α),
      p ∈ mapSet m k v → p = (k, v) ∨ p ∈ m
  | [], k, v, p, h => by
      simp [mapSet] at h
      exact Or.inl h
  | (k', v') :: rest, k, v, p, h => by
      by_cases hk : k' = k
      · subst hk
        simp [mapSet] at h
        rcases h with h | h
        · exact Or.inl h
        · exact Or.inr (List.mem_cons_of_mem _ h)
      · simp only [mapSet, if_neg hk, List.mem_cons] at h
        rcases h with h | h
        · exact Or.inr (by simp [h])
        · rcases mem_mapSet rest k v p h with h2 | h2
          · exact Or.inl h2
          · exact Or.inr (List.mem_cons_of_mem _ h2)

/-- A `mapDelete` only removes bindings. -/
theorem mem_mapDelete {κ α : Type} [DecidableEq κ] :
    ∀ (m : List (κ × α)) (k : κ) (p : κ × α), p ∈ mapDelete m k → p ∈ m
  | [], _, _, h => by simp [mapDelete] at h
  | (k', v') :: rest, k, p, h => by
      by_cases hk : k' = k
      · subst hk
        simp only [mapDelete, if_pos rfl] at h
        exact List.mem_cons_of_mem _ h
      · simp only [mapDelete, if_neg hk, List.mem_cons] at h
        rcases h with h | h
        · exact h ▸ List.mem_cons_self _ _
        · exact List.mem_cons_of_mem _ (mem_mapDelete rest k p h)

/-- Evaluation of `mapGet` at the head key. -/
theorem mapGet_cons_self {κ α : Type} [DecidableEq κ] (k : κ) (v : α)
    (rest : List (κ × α)) : mapGet ((k, v) :: rest) k = some v := by
  simp [mapGet]

/-- Evaluation of `mapSet` at the head key. -/
theorem mapSet_cons_self {κ α : Type} [DecidableEq κ] (k : κ) (v v' : α)
    (rest : List (κ × α)) : mapSet ((k, v) :: rest) k v' = (k, v') :: rest := by
  simp [mapSet]

/-- Evaluation of `mapDelete` at the head key. -/
theorem mapDelete_cons_self {κ α : Type} [DecidableEq κ] (k : κ) (v : α)
    (rest : List (κ × α)) : mapDelete ((k, v) :: rest) k = rest := by
  simp [mapDelete]

/-- The disconnect scan only removes rooms. -/
theorem mem_disconnectScan :
    ∀ (m : List (String × Room)) (conn : Nat) (p : String × Room),
      p ∈ (disconnectScan m conn).1 → p ∈ m
  | [], _, _, h => by simp [disconnectScan] at h
  | (c, room) :: rest, conn, p, h => by
      by_cases hh : room.hostSocket = conn
      · simp only [disconnectScan, if_pos hh] at h
        exact List.mem_cons_of_mem _ h
      · simp only [disconnectScan, if_neg hh, List.mem_cons] at h
        rcases h with h | h
        · exact h ▸ List.mem_cons_self _ _
        · exact List.mem_cons_of_mem _ (mem_disconnectScan rest conn p h)

/-- Running an appended event list runs the two parts in order. -/
theorem runEvents_append (s : ServerState) (es1 es2 : List Event) :
    runEvents s (es1 ++ es2) = runEvents (runEvents s es1) es2 := by
  unfold runEvents
  exact List.foldl_append _ _ _ _

/-! ### Handler-shape lemmas -/

/-- Shape of `nextQuestion` by the host while questions remain: broadcast the
question at `currentIndex` to the canonical group, then increment. -/
theorem nextQuestion_advance (s : ServerState) (conn : Nat) (code : String)
    (r : Room) (hm : mapGet s.liveRooms code = some r)
    (hh : r.hostSocket = conn) (hlt : r.currentIndex < r.quiz.questions.length) :
    nextQuestion s conn code
      = ⟨⟨mapSet s.liveRooms code { r with currentIndex := r.currentIndex + 1 }, s.groups⟩,
         none,
         [(Target.toGroup code,
           Msg.newQuestion (some (r.quiz.questions.get ⟨r.currentIndex, hlt⟩))
             r.currentIndex)],
         false⟩ := by
  unfold nextQuestion
  rw [hm]
  dsimp only
  rw [if_pos hh, dif_pos hlt]

/-- Shape of `nextQuestion` by the host once every question was sent: broadcast
`liveEnded` and delete the room. -/
theorem nextQuestion_completes (s : ServerState) (conn : Nat) (code : String)
    (r : Room) (hm : mapGet s.liveRooms code = some r)
    (hh : r.hostSocket = conn) (hge : ¬ r.currentIndex < r.quiz.questions.length) :
    nextQuestion s conn code
      = ⟨⟨mapDelete s.liveRooms code, s.groups⟩, none,
         [(Target.toGroup code, Msg.liveEnded "quiz_completed")], false⟩ := by
  unfold nextQuestion
  rw [hm]
  dsimp only
  rw [if_pos hh, dif_neg hge]

/-- Iterating host `nextQuestion` calls on a one-room registry while
questions remain just advances `currentIndex`. -/
theorem nextQuestion_iterate (c : String) (host : Nat) (qid : String)
    (quiz : QuizData) (gs : List (String × Nat)) :
    ∀ (k j : Nat), j + k ≤ quiz.questions.length →
      runEvents ⟨[(c, ⟨c, host, qid, quiz, j, []⟩)], gs⟩
          (List.replicate k (Event.nextQuestion host c))
        = ⟨[(c, ⟨c, host, qid, quiz, j + k, []⟩)], gs⟩
  | 0, j, _ => rfl
  | k + 1, j, h => by
      have hj : j < quiz.questions.length := by omega
      have hadv := nextQuestion_advance ⟨[(c, ⟨c, host, qid, quiz, j, []⟩)], gs⟩
        host c ⟨c, host, qid, quiz, j, []⟩ (mapGet_cons_self _ _ _) rfl hj
      have hstate : (applyEvent ⟨[(c, ⟨c, host, qid, quiz, j, []⟩)], gs⟩
          (Event.nextQuestion host c)).state
          = ⟨[(c, ⟨c, host, qid, quiz, j + 1, []⟩)], gs⟩ := by
        show (nextQuestion ⟨[(c, ⟨c, host, qid, quiz, j, []⟩)], gs⟩ host c).state = _
        rw [hadv]
        dsimp only
        rw [mapSet_cons_self]
      show runEvents (applyEvent ⟨[(c, ⟨c, host, qid, quiz, j, []⟩)], gs⟩
          (Event.nextQuestion host c)).state
          (List.replicate k (Event.nextQuestion host c)) = _
      rw [hstate, nextQuestion_iterate c host qid quiz gs k (j + 1) (by omega)]
      have hjk : j + 1 + k = j + (k + 1) := by omega
      rw [hjk]

/-- The disconnect scan keeps a non-hosted head room in place. -/
theorem disconnectScan_cons_skip (c0 : String) (r0 : Room)
    (rest : List (String × Room)) (conn : Nat) (h0 : r0.hostSocket ≠ conn) :
    disconnectScan ((c0, r0) :: rest) conn
      = ((c0, r0) :: (disconnectScan rest conn).1, (disconnectScan rest conn).2) := by
  simp only [disconnectScan, if_neg h0]

/-- The disconnect scan stops at the first room hosted by the dropped
socket: that room is removed and broadcast to, everything else is kept
in place. -/
theorem disconnectScan_first (conn : Nat) (c : String) (r : Room)
    (post : List (String × Room)) :
    ∀ pre : List (String × Room), (∀ p ∈ pre, p.2.hostSocket ≠ conn) →
      r.hostSocket = conn →
      disconnectScan (pre ++ (c, r) :: post) conn
        = (pre ++ post, [(Target.toGroup c, Msg.liveEnded "teacher_disconnected")])
  | [], _, hr => by
      simp only [List.nil_append, disconnectScan, if_pos hr]
  | (c0, r0) :: pre, hpre, hr => by
      have h0 : r0.hostSocket ≠ conn := hpre (c0, r0) (List.mem_cons_self _ _)
      have ih := disconnectScan_first conn c r post pre
        (fun p hp => hpre p (List.mem_cons_of_mem _ hp)) hr
      show disconnectScan ((c0, r0) :: (pre ++ (c, r) :: post)) conn = _
      rw [disconnectScan_cons_skip _ _ _ _ h0, ih]
      rfl

/-! ### The currentIndex range invariant -/

theorem indexInv_createLive (s : ServerState) (conn : Nat)
    (uid role quizId : String) (fetch : FetchResult) (freshCode : String)
    (h : IndexInv s) :
    IndexInv (createLive s conn uid role quizId fetch freshCode).state := by
  unfold createLive
  by_cases hrole : role = "teacher"
  · rw [if_pos hrole]
    cases fetch with
    | throws => exact h
    | notFound => exact h
    | found quizData =>
      dsimp only
      by_cases hown : quizData.ownerUid = uid
      · rw [if_pos hown]
        intro p hp
        rcases mem_mapSet _ _ _ _ hp with hp2 | hp2
        · subst hp2; exact Nat.zero_le _
        · exact h p hp2
      · rw [if_neg hown]; exact h
  · rw [if_neg hrole]; exact h

theorem indexInv_joinLive (s : ServerState) (conn : Nat)
    (uid userName code : String) (h : IndexInv s) :
    IndexInv (joinLive s conn uid userName code).state := by
  unfold joinLive
  cases hm : mapGet s.liveRooms (jsToUpper code) with
  | none => exact h
  | some room =>
    dsimp only
    intro p hp
    rcases mem_mapSet _ _ _ _ hp with hp2 | hp2
    · subst hp2
      exact h (jsToUpper code, room) (mapGet_mem _ _ _ hm)
    · exact h p hp2

theorem indexInv_nextQuestion (s : ServerState) (conn : Nat) (code : String)
    (h : IndexInv s) : IndexInv (nextQuestion s conn code).state := by
  unfold nextQuestion
  cases hm : mapGet s.liveRooms code with
  | none => exact h
  | some room =>
    dsimp only
    by_cases hh : room.hostSocket = conn
    · rw [if_pos hh]
      by_cases hlt : room.currentIndex < room.quiz.questions.length
      · rw [dif_pos hlt]
        intro p hp
        rcases mem_mapSet _ _ _ _ hp with hp2 | hp2
        · subst hp2; exact hlt
        · exact h p hp2
      · rw [dif_neg hlt]
        intro p hp
        exact h p (mem_mapDelete _ _ _ hp)
    · rw [if_neg hh]; exact h

theorem indexInv_submitAnswer (s : ServerState) (conn : Nat)
    (uid code : String) (answerIndex : Nat) (h : IndexInv s) :
    IndexInv (submitAnswer s conn uid code answerIndex).state := by
  unfold submitAnswer
  cases hm : mapGet s.liveRooms code with
  | none => exact h
  | some room =>
    dsimp only
    cases hp : mapGet room.participants uid with
    | none => exact h
    | some participant =>
      have hroom : room.currentIndex ≤ room.quiz.questions.length :=
        h (code, room) (mapGet_mem _ _ _ hm)
      dsimp only
      cases hq : jsIndex room.quiz.questions ((room.currentIndex : Int) - 1) with
      | none =>
        dsimp only
        intro p hp2
        rcases mem_mapSet _ _ _ _ hp2 with hp3 | hp3
        · subst hp3; exact hroom
        · exact h p hp3
      | some question =>
        dsimp only
        intro p hp2
        rcases mem_mapSet _ _ _ _ hp2 with hp3 | hp3
        · subst hp3; exact hroom
        · exact h p hp3

theorem indexInv_endLive (s : ServerState) (conn : Nat) (code : String)
    (h : IndexInv s) : IndexInv (endLive s conn code).state := by
  unfold endLive
  cases hm : mapGet s.liveRooms code with
  | none => exact h
  | some room =>
    dsimp only
    by_cases hh : room.hostSocket = conn
    · rw [if_pos hh]
      intro p hp
      exact h p (mem_mapDelete _ _ _ hp)
    · rw [if_neg hh]; exact h

theorem indexInv_disconnect (s : ServerState) (conn : Nat) (h : IndexInv s) :
    IndexInv (disconnect s conn).state := by
  intro p hp
  exact h p (mem_disconnectScan _ _ _ hp)

theorem indexInv_applyEvent (s : ServerState) (e : Event) (h : IndexInv s) :
    IndexInv (applyEvent s e).state := by
  cases e with
  | createLive conn uid role quizId fetch freshCode =>
      exact indexInv_createLive s conn uid role quizId fetch freshCode h
  | joinLive conn uid userName code => exact indexInv_joinLive s conn uid userName code h
  | nextQuestion conn code => exact indexInv_nextQuestion s conn code h
  | submitAnswer conn uid code answerIndex =>
      exact indexInv_submitAnswer s conn uid code answerIndex h
  | endLive conn code => exact indexInv_endLive s conn code h
  | disconnect conn => exact indexInv_disconnect s conn h

theorem indexInv_runEvents :
    ∀ (es : List Event) (s : ServerState), IndexInv s → IndexInv (runEvents s es)
  | [], _, h => h
  | e :: rest, s, h => indexInv_runEvents rest _ (indexInv_applyEvent s e h)

/-! ### Claim C1 -/

/-- Claim C1 is violated by the code (latent double-count): with
question 0 live and its correct-answer set `{0}`, Alice submitting the
correct index 0 once is scored 1, but submitting it a second time for
the same question index is scored again, reaching 2: `submitAnswer`
never checks whether the question index was already answered. -/
theorem C1_correct_resubmission_double_counts :
    (submitAnswer stateLive 1 "stud1" "QZ-ABC123" 0).state
      = ⟨[("QZ-ABC123",
            { roomLive with participants := [("stud1", ⟨"Alice", 1, [(0, 0)]⟩)] })],
         [("QZ-ABC123", 0)]⟩
    ∧ (submitAnswer (submitAnswer stateLive 1 "stud1" "QZ-ABC123" 0).state
          1 "stud1" "QZ-ABC123" 0).state
      = ⟨[("QZ-ABC123",
            { roomLive with participants := [("stud1", ⟨"Alice", 2, [(0, 0)]⟩)] })],
         [("QZ-ABC123", 0)]⟩ := by
  exact ⟨by decide, by decide⟩

/-! ### Claim C2 -/

/-- Claim C2 is violated by the code: with `currentIndex = 0` (lobby)
and Alice joined, a `submitAnswer` is NOT silently dropped — the
handler stores the answer under the invalid question index `-1`
(mutating the participant's `answers`) and then throws reading
`correct` of `undefined` (`errored = true`), so session state is
changed and an error is raised. -/
theorem C2_submit_in_lobby_mutates_and_throws :
    (submitAnswer stateLobby 1 "stud1" "QZ-ABC123" 0).errored = true
    ∧ (submitAnswer stateLobby 1 "stud1" "QZ-ABC123" 0).state
      = ⟨[("QZ-ABC123",
            { roomLobby with participants := [("stud1", ⟨"Alice", 0, [(-1, 0)]⟩)] })],
         [("QZ-ABC123", 0)]⟩
    ∧ (submitAnswer stateLobby 1 "stud1" "QZ-ABC123" 0).state ≠ stateLobby := by
  exact ⟨by decide, by decide, by decide⟩

/-! ### Claim C3 -/

/-- Claim C3 as stated is false at a concrete input: for a fresh
session over a one-question quiz, after exactly
`len(questions) = 1` host `nextQuestion` call the session has NOT
ended — it is still in the registry with `currentIndex = 1`. -/
theorem C3_counterexample_still_registered_after_len_calls :
    mapGet (runEvents stateFresh
        (List.replicate 1 (Event.nextQuestion 0 "QZ-ABC123"))).liveRooms "QZ-ABC123"
      = some ⟨"QZ-ABC123", 0, "quiz1", quizOne, 1, []⟩ := by decide

/-- Claim C3 (amended): on a freshly created session with `n`
questions the host needs `n + 1` `nextQuestion` calls to end it:
after exactly `n` calls the session is still registered with
`currentIndex = n`; the `(n+1)`-th call removes it from the registry;
and a further `nextQuestion` is a no-op because the session is no
longer found. -/
theorem C3_nextQuestion_ends_after_len_plus_one_calls (c : String) (host : Nat)
    (qid : String) (quiz : QuizData) (gs : List (String × Nat)) :
    runEvents ⟨[(c, ⟨c, host, qid, quiz, 0, []⟩)], gs⟩
        (List.replicate quiz.questions.length (Event.nextQuestion host c))
      = ⟨[(c, ⟨c, host, qid, quiz, quiz.questions.length, []⟩)], gs⟩
    ∧ runEvents ⟨[(c, ⟨c, host, qid, quiz, 0, []⟩)], gs⟩
        (List.replicate (quiz.questions.length + 1) (Event.nextQuestion host c))
      = ⟨[], gs⟩
    ∧ nextQuestion (⟨[], gs⟩ : ServerState) host c = noop ⟨[], gs⟩ := by
  have h1 := nextQuestion_iterate c host qid quiz gs quiz.questions.length 0
    (by omega)
  rw [Nat.zero_add] at h1
  refine ⟨h1, ?_, rfl⟩
  rw [List.replicate_succ', runEvents_append, h1]
  show (applyEvent ⟨[(c, ⟨c, host, qid, quiz, quiz.questions.length, []⟩)], gs⟩
      (Event.nextQuestion host c)).state = _
  have hcomp := nextQuestion_completes
    ⟨[(c, ⟨c, host, qid, quiz, quiz.questions.length, []⟩)], gs⟩ host c
    ⟨c, host, qid, quiz, quiz.questions.length, []⟩
    (mapGet_cons_self _ _ _) rfl (Nat.lt_irrefl _)
  show (nextQuestion ⟨[(c, ⟨c, host, qid, quiz, quiz.questions.length, []⟩)], gs⟩
      host c).state = _
  rw [hcomp]
  dsimp only
  rw [mapDelete_cons_self]

/-! ### Claim C4 -/

/-- Claim C4 as stated is false at a concrete input: the session is
stored under `"QZ-ABC123"`, and the host's `nextQuestion` with the
case variant `"qz-abc123"` does NOT find it — the event is dropped
with no state change and no broadcast — while the same call with the
canonical code does change the state. -/
theorem C4_counterexample_case_variant_lookup_fails :
    nextQuestion stateFresh 0 "qz-abc123" = noop stateFresh
    ∧ (nextQuestion stateFresh 0 "QZ-ABC123").state ≠ stateFresh := by
  exact ⟨by decide, by decide⟩

/-- Claim C4 (amended): only `joinLive` case-normalizes the submitted
code (its success is exactly a hit for the upper-cased code), while
`nextQuestion`, `submitAnswer` and `endLive` look up the raw string:
whenever the raw code — e.g. any non-canonical case variant — is not
a registry key, those three handlers silently drop the event. -/
theorem C4_only_joinLive_normalizes_code_case :
    (∀ (s : ServerState) (conn : Nat) (uid userName code : String),
        (joinLive s conn uid userName code).reply = some Reply.success
          ↔ (mapGet s.liveRooms (jsToUpper code)).isSome)
    ∧ (∀ (s : ServerState) (conn : Nat) (uid code : String) (ai : Nat),
        mapGet s.liveRooms code = none →
          nextQuestion s conn code = noop s
          ∧ submitAnswer s conn uid code ai = noop s
          ∧ endLive s conn code = noop s) := by
  constructor
  · intro s conn uid userName code
    unfold joinLive
    cases hm : mapGet s.liveRooms (jsToUpper code) with
    | none => simp
    | some room => simp
  · intro s conn uid code ai hm
    refine ⟨?_, ?_, ?_⟩
    · unfold nextQuestion; rw [hm]
    · unfold submitAnswer; rw [hm]
    · unfold endLive; rw [hm]

/-- Witness for the amended C4 at a concrete input: joining
`"qz-abc123"` succeeds because `"QZ-ABC123"` is registered, while
`nextQuestion` / `submitAnswer` / `endLive` on `"qz-abc123"` are
no-ops. -/
theorem C4_only_joinLive_normalizes_code_case_witness :
    ((joinLive stateFresh 1 "stud1" "Alice" "qz-abc123").reply = some Reply.success
      ↔ (mapGet stateFresh.liveRooms (jsToUpper "qz-abc123")).isSome)
    ∧ (nextQuestion stateFresh 0 "qz-abc123" = noop stateFresh
       ∧ submitAnswer stateFresh 0 "stud1" "qz-abc123" 0 = noop stateFresh
       ∧ endLive stateFresh 0 "qz-abc123" = noop stateFresh) :=
  ⟨C4_only_joinLive_normalizes_code_case.1 stateFresh 1 "stud1" "Alice" "qz-abc123",
   C4_only_joinLive_normalizes_code_case.2 stateFresh 0 "stud1" "qz-abc123" 0
     (by decide)⟩

/-! ### Claim C5 -/

/-- Claim C5: after every sequence of operations from process start,
every registered session satisfies
`0 ≤ currentIndex ≤ quiz.questions.length` (the lower bound holds by
the `Nat` type): `currentIndex` is 0 at creation and is only
incremented under the guard `currentIndex < quiz.questions.length`. -/
theorem C5_currentIndex_invariant (es : List Event) (c : String) (r : Room)
    (h : mapGet (runEvents initState es).liveRooms c = some r) :
    r.currentIndex ≤ r.quiz.questions.length :=
  indexInv_runEvents es initState (fun p hp => absurd hp (List.not_mem_nil p))
    (c, r) (mapGet_mem _ _ _ h)

/-- Witness for C5: a concrete `createLive`, `joinLive`,
`nextQuestion` run reaches `currentIndex = 1 ≤ 1`. -/
theorem C5_currentIndex_invariant_witness :
    mapGet (runEvents initState
        [Event.createLive 0 "t-uid" "teacher" "quiz1" (FetchResult.found quizOne) "QZ-ABC123",
         Event.joinLive 1 "stud1" "Alice" "QZ-ABC123",
         Event.nextQuestion 0 "QZ-ABC123"]).liveRooms "QZ-ABC123"
      = some ⟨"QZ-ABC123", 0, "quiz1", quizOne, 1, [("stud1", ⟨"Alice", 0, []⟩)]⟩
    ∧ (1 : Nat) ≤ quizOne.questions.length :=
  ⟨by decide,
    C5_currentIndex_invariant
      [Event.createLive 0 "t-uid" "teacher" "quiz1" (FetchResult.found quizOne) "QZ-ABC123",
       Event.joinLive 1 "stud1" "Alice" "QZ-ABC123",
       Event.nextQuestion 0 "QZ-ABC123"] "QZ-ABC123"
      ⟨"QZ-ABC123", 0, "quiz1", quizOne, 1, [("stud1", ⟨"Alice", 0, []⟩)]⟩
      (by decide)⟩

/-! ### Claim C6 -/

/-- Claim C6: a `nextQuestion` or `endLive` call by any connection
other than the addressed session's stored `hostSocket` leaves the
whole server state unchanged, emits no broadcast and sends no
reply. -/
theorem C6_non_host_ignored (s : ServerState) (conn : Nat) (code : String)
    (r : Room) (hm : mapGet s.liveRooms code = some r)
    (hh : r.hostSocket ≠ conn) :
    nextQuestion s conn code = noop s ∧ endLive s conn code = noop s := by
  constructor
  · unfold nextQuestion
    rw [hm]
    dsimp only
    rw [if_neg hh]
  · unfold endLive
    rw [hm]
    dsimp only
    rw [if_neg hh]

/-- Witness for C6: socket 5 is not the host of `stateLive`. -/
theorem C6_non_host_ignored_witness :
    nextQuestion stateLive 5 "QZ-ABC123" = noop stateLive
    ∧ endLive stateLive 5 "QZ-ABC123" = noop stateLive :=
  C6_non_host_ignored stateLive 5 "QZ-ABC123" roomLive (by decide) (by decide)

/-! ### Claim C7 -/

/-- Claim C7: on every failure path of `createLive` (caller not a
teacher, fetch throws, quiz not found, caller not the owner) the
registry and the groups are unchanged, nothing is emitted or
broadcast, and the error is reported only on the direct callback
reply. -/
theorem C7_createLive_failure_paths (s : ServerState) (conn : Nat)
    (uid role quizId : String) (fetch : FetchResult) (freshCode : String)
    (hfail : role ≠ "teacher" ∨ fetch = FetchResult.throws
      ∨ fetch = FetchResult.notFound
      ∨ ∃ d, fetch = FetchResult.found d ∧ d.ownerUid ≠ uid) :
    (createLive s conn uid role quizId fetch freshCode).state = s
    ∧ (createLive s conn uid role quizId fetch freshCode).emits = []
    ∧ ∃ msg, (createLive s conn uid role quizId fetch freshCode).reply
        = some (Reply.error msg) := by
  unfold createLive
  rcases hfail with hrole | hthrow | hnf | ⟨d, hfound, hown⟩
  · rw [if_neg hrole]
    exact ⟨rfl, rfl, _, rfl⟩
  · subst hthrow
    by_cases hrole : role = "teacher"
    · rw [if_pos hrole]
      exact ⟨rfl, rfl, _, rfl⟩
    · rw [if_neg hrole]
      exact ⟨rfl, rfl, _, rfl⟩
  · subst hnf
    by_cases hrole : role = "teacher"
    · rw [if_pos hrole]
      exact ⟨rfl, rfl, _, rfl⟩
    · rw [if_neg hrole]
      exact ⟨rfl, rfl, _, rfl⟩
  · subst hfound
    by_cases hrole : role = "teacher"
    · rw [if_pos hrole]
      dsimp only
      rw [if_neg hown]
      exact ⟨rfl, rfl, _, rfl⟩
    · rw [if_neg hrole]
      exact ⟨rfl, rfl, _, rfl⟩

/-- Witness for C7: a student-role caller is refused with no state
change. -/
theorem C7_createLive_failure_paths_witness :
    (createLive stateFresh 7 "u9" "student" "quiz1" (FetchResult.found quizOne)
        "QZ-NEW111").state = stateFresh
    ∧ (createLive stateFresh 7 "u9" "student" "quiz1" (FetchResult.found quizOne)
        "QZ-NEW111").emits = []
    ∧ ∃ msg, (createLive stateFresh 7 "u9" "student" "quiz1" (FetchResult.found quizOne)
        "QZ-NEW111").reply = some (Reply.error msg) :=
  C7_createLive_failure_paths stateFresh 7 "u9" "student" "quiz1"
    (FetchResult.found quizOne) "QZ-NEW111" (Or.inl (by decide))

/-! ### Claim C8 -/

/-- Claim C8: the peer-visible output of `submitAnswer` (the messages
multicast to the group minus the submitter) does not depend on the
submitted answer index — hence not on its correctness — and when the
event is processed it is exactly one `answerReceived` carrying the
participant name and NO correctness flag; only the host's private copy
carries the flag. -/
theorem C8_peer_notification_independent_of_correctness
    (s : ServerState) (conn : Nat) (uid code : String) (ai1 ai2 : Nat) :
    peerVisible (submitAnswer s conn uid code ai1).emits
      = peerVisible (submitAnswer s conn uid code ai2).emits
    ∧ (peerVisible (submitAnswer s conn uid code ai1).emits = []
       ∨ ∃ nm, peerVisible (submitAnswer s conn uid code ai1).emits
           = [(Target.toGroupExcept code conn, Msg.answerReceived nm none)]) := by
  unfold submitAnswer
  cases hm : mapGet s.liveRooms code with
  | none => exact ⟨rfl, Or.inl rfl⟩
  | some room =>
    dsimp only
    cases hp : mapGet room.participants uid with
    | none => exact ⟨rfl, Or.inl rfl⟩
    | some participant =>
      dsimp only
      cases hq : jsIndex room.quiz.questions ((room.currentIndex : Int) - 1) with
      | none => exact ⟨rfl, Or.inl rfl⟩
      | some question =>
        exact ⟨rfl, Or.inr ⟨participant.name, rfl⟩⟩

/-! ### Claim C9 -/

/-- Claim C9: one `disconnect` ends at most one session: the first
room (in registry insertion order) whose host is the dropped socket is
broadcast to and deleted, and every other room — including any later
room hosted by the same socket — stays registered untouched. -/
theorem C9_disconnect_ends_only_first_hosted (s : ServerState) (conn : Nat)
    (pre : List (String × Room)) (c : String) (r : Room)
    (post : List (String × Room))
    (hs : s.liveRooms = pre ++ (c, r) :: post)
    (hpre : ∀ p ∈ pre, p.2.hostSocket ≠ conn)
    (hr : r.hostSocket = conn) :
    (disconnect s conn).state = ⟨pre ++ post, s.groups⟩
    ∧ (disconnect s conn).emits
        = [(Target.toGroup c, Msg.liveEnded "teacher_disconnected")] := by
  unfold disconnect
  rw [hs, disconnectScan_first conn c r post pre hpre hr]
  exact ⟨rfl, rfl⟩

/-- Witness for C9: socket 0 hosts both `roomFresh` and `roomSecond`;
dropping it deletes only `roomFresh` (the first in iteration order)
and `roomSecond` stays registered. -/
theorem C9_disconnect_ends_only_first_hosted_witness :
    (disconnect stateTwoHosted 0).state
      = ⟨[("QZ-OTHER11", roomOther), ("QZ-SECOND1", roomSecond)], []⟩
    ∧ (disconnect stateTwoHosted 0).emits
      = [(Target.toGroup "QZ-ABC123", Msg.liveEnded "teacher_disconnected")] :=
  C9_disconnect_ends_only_first_hosted stateTwoHosted 0
    [("QZ-OTHER11", roomOther)] "QZ-ABC123" roomFresh
    [("QZ-SECOND1", roomSecond)] (by decide) (by decide) (by decide)

/-! ### Claim C10 -/

/-- Claim C10: `joinLive` subscribes the caller to the group named by
the RAW submitted code, while the session's broadcasts go to the group
named by the stored canonical code.  Concretely: joining the session
stored as `"QZ-ABC123"` with the case-variant code `"qz-abc123"`
succeeds and records the participant, but puts socket 1 only in group
`"qz-abc123"`, and every subsequent `nextQuestion` / `endLive` /
`disconnect` broadcast for this session targets group `"QZ-ABC123"`,
of which socket 1 is not a member. -/
theorem C10_case_variant_join_misses_broadcasts :
    (joinLive stateFresh 1 "stud1" "Alice" "qz-abc123").reply = some Reply.success
    ∧ mapGet (joinLive stateFresh 1 "stud1" "Alice" "qz-abc123").state.liveRooms
        "QZ-ABC123"
      = some { roomFresh with participants := [("stud1", ⟨"Alice", 0, []⟩)] }
    ∧ (joinLive stateFresh 1 "stud1" "Alice" "qz-abc123").state.groups
      = [("QZ-ABC123", 0), ("qz-abc123", 1)]
    ∧ ("QZ-ABC123", 1) ∉ (joinLive stateFresh 1 "stud1" "Alice" "qz-abc123").state.groups
    ∧ (nextQuestion (joinLive stateFresh 1 "stud1" "Alice" "qz-abc123").state 0
        "QZ-ABC123").emits
      = [(Target.toGroup "QZ-ABC123", Msg.newQuestion (some qOne) 0)]
    ∧ (endLive (joinLive stateFresh 1 "stud1" "Alice" "qz-abc123").state 0
        "QZ-ABC123").emits
      = [(Target.toGroup "QZ-ABC123", Msg.liveEnded "ended_by_teacher")]
    ∧ (disconnect (joinLive stateFresh 1 "stud1" "Alice" "qz-abc123").state 0).emits
      = [(Target.toGroup "QZ-ABC123", Msg.liveEnded "teacher_disconnected")] := by
  exact ⟨by decide, by decide, by decide, by decide, by decide, by decide, by decide⟩

end SuperQuiz
